import Mathlib

/-!
Verification development for the comfypack model-path inference engine
(`model_path_inference.py`, `workflow_processor.py`).

Python dictionaries are modelled as insertion-ordered association lists
(`dinsert` overwrites in place, otherwise appends — Python dict semantics);
Python exceptions are modelled with `Except Unit`; the mini Python AST below
carries exactly the node shapes the analyzed code inspects.
-/

namespace Comfypack

/-- Python dict assignment `d[k] = v`: overwrite in place if the key exists,
    otherwise append at the end (insertion order preserved). -/
def dinsert {α : Type} : List (String × α) → String → α → List (String × α)
  | [], k, v => [(k, v)]
  | (k', v') :: rest, k, v =>
      if k' = k then (k', v) :: rest else (k', v') :: dinsert rest k v

/-- Python dict lookup `d.get(k)`. -/
def alookup {α : Type} : List (String × α) → String → Option α
  | [], _ => none
  | (k', v) :: rest, k => if k' = k then some v else alookup rest k

/-- Python `d.update(m)`: insert every pair of `m` into `d` in order. -/
def updateAll {α : Type} (d m : List (String × α)) : List (String × α) :=
  m.foldl (fun a kv => dinsert a kv.1 kv.2) d

/-- Character-list prefix test (used to embed Python string operations). -/
def isPrefixChars : List Char → List Char → Bool
  | [], _ => true
  | _ :: _, [] => false
  | a :: as, b :: bs => a = b && isPrefixChars as bs

/-- Python substring test `needle in hay`, over character lists. -/
def containsChars (hay needle : List Char) : Bool :=
  isPrefixChars needle hay ||
    match hay with
    | [] => false
    | _ :: t => containsChars t needle

/-- Python `needle in hay` on strings. -/
def pyContains (hay needle : String) : Bool := containsChars hay.data needle.data

/-- Python `s.lower()` (ASCII case mapping, as in all analyzed inputs). -/
def pyLower (s : String) : String := ⟨s.data.map Char.toLower⟩

/-- Python `s.startswith(p)`. -/
def pyStartsWith (s p : String) : Bool := isPrefixChars p.data s.data

/-- Mini Python expression AST: the node shapes `NodeVisitor.visit_Call` and
    the NODE_CLASS_MAPPINGS extractor inspect (`ast.Name`, `ast.Attribute`,
    `ast.Constant` string, `ast.Call`, `ast.Dict`); `other` stands for any
    further expression kind, carrying its child expressions. -/
inductive PyExpr : Type where
  | name : String → PyExpr
  | attr : PyExpr → String → PyExpr
  | constStr : String → PyExpr
  | call : PyExpr → List PyExpr → PyExpr
  | dict : List PyExpr → List PyExpr → PyExpr
  | other : List PyExpr → PyExpr
deriving Repr

/-- Mini Python statement AST: `ast.ClassDef`, `ast.FunctionDef` (decorators
    abstracted to their names), `ast.Assign`, expression statements, and
    `block` for any other compound statement with child expressions and
    child statements. -/
inductive PyStmt : Type where
  | classDef : String → List PyStmt → PyStmt
  | funcDef : String → List String → List PyStmt → PyStmt
  | assign : List PyExpr → PyExpr → PyStmt
  | exprStmt : PyExpr → PyStmt
  | block : List PyExpr → List PyStmt → PyStmt
deriving Repr

/-- Mutable state of `NodeVisitor`: `current_class` and `class_folders`. -/
structure VState where
  currentClass : Option String
  classFolders : List (String × List (String × String))
deriving Repr

/-- Body of `visit_Call`'s recording branch: store the folder literal under
    the current class (`class_folders[current][folder] = folder`); no-op when
    `current_class` is `None`. -/
def recordFolder (st : VState) (folder : String) : VState :=
  match st.currentClass with
  | none => st
  | some c =>
      let inner := (alookup st.classFolders c).getD []
      ⟨st.currentClass, dinsert st.classFolders c (dinsert inner folder folder)⟩

/-- The guard of `visit_Call`: a call `folder_paths.get_filename_list(<lit>, ...)`
    with a string-constant first argument records that literal. -/
def callCheck (st : VState) (fn : PyExpr) (args : List PyExpr) : VState :=
  match fn, args with
  | .attr (.name "folder_paths") "get_filename_list", .constStr s :: _ =>
      recordFolder st s
  | _, _ => st

mutual

/-- `NodeVisitor.visit` on one expression: `visit_Call` records then falls
    through to `generic_visit`; every other expression is generically visited. -/
def visitExpr (st : VState) : PyExpr → VState
  | .name _ => st
  | .attr v _ => visitExpr st v
  | .constStr _ => st
  | .call fn args => visitExprs (visitExpr (callCheck st fn args) fn) args
  | .dict ks vs => visitExprs (visitExprs st ks) vs
  | .other cs => visitExprs st cs

/-- Visit a list of expressions in order. -/
def visitExprs (st : VState) : List PyExpr → VState
  | [] => st
  | e :: es => visitExprs (visitExpr st e) es

end

mutual

/-- `NodeVisitor.visit` on one statement. `visit_ClassDef` sets
    `current_class` (never restoring it), pre-scans `INPUT_TYPES`
    classmethods, then generically visits the whole body; other statements
    are generically visited. -/
def visitStmt (st : VState) : PyStmt → VState
  | .classDef nm body =>
      let st1 : VState := ⟨some nm, st.classFolders⟩
      let st2 := prescanBody st1 body
      visitStmts st2 body
  | .funcDef _ _ body => visitStmts st body
  | .assign targets value => visitExpr (visitExprs st targets) value
  | .exprStmt e => visitExpr st e
  | .block es body => visitStmts (visitExprs st es) body

/-- Visit a list of statements in order. -/
def visitStmts (st : VState) : List PyStmt → VState
  | [] => st
  | s :: ss => visitStmts (visitStmt st s) ss

/-- The `visit_ClassDef` loop that visits each `INPUT_TYPES` classmethod body
    before the generic visit of the class body. -/
def prescanBody (st : VState) : List PyStmt → VState
  | [] => st
  | .funcDef nm decs body :: rest =>
      if nm == "INPUT_TYPES" && decs.contains "classmethod"
      then prescanBody (visitStmts st body) rest
      else prescanBody st rest
  | _ :: rest => prescanBody st rest

end

/-- Result of reading a source file: the two textual marker tests the code
    performs on the raw content, and the outcome of `ast.parse`. -/
structure FileContent where
  hasNodeClassMappings : Bool
  hasInputTypes : Bool
  parse : Except Unit (List PyStmt)
deriving Repr

/-- One file of the scanned source tree: its path components (as in
    `path.parts`) and the outcome of opening and reading it. -/
structure SrcFile where
  parts : List String
  read : Except Unit FileContent
deriving Repr

/-- Record the `key → identifier` pairs of one `NODE_CLASS_MAPPINGS` dict
    literal (string-constant keys, bare-identifier values; others skipped). -/
def addMappingPairs (acc : List (String × String)) :
    List (PyExpr × PyExpr) → List (String × String)
  | [] => acc
  | (PyExpr.constStr s, PyExpr.name id) :: rest => addMappingPairs (dinsert acc s id) rest
  | _ :: rest => addMappingPairs acc rest

mutual

/-- The `ast.walk` body of `_load_node_class_mappings` on one statement:
    an assignment with the single target `NODE_CLASS_MAPPINGS` and a dict
    literal value contributes its pairs; compound statements are walked. -/
def extractMappingsStmt (acc : List (String × String)) : PyStmt → List (String × String)
  | .assign [PyExpr.name "NODE_CLASS_MAPPINGS"] (PyExpr.dict ks vs) =>
      addMappingPairs acc (ks.zip vs)
  | .assign _ _ => acc
  | .classDef _ body => extractMappingsStmts acc body
  | .funcDef _ _ body => extractMappingsStmts acc body
  | .block _ body => extractMappingsStmts acc body
  | .exprStmt _ => acc

/-- Walk a list of statements in order, accumulating alias pairs. -/
def extractMappingsStmts (acc : List (String × String)) : List PyStmt → List (String × String)
  | [] => acc
  | s :: ss => extractMappingsStmts (extractMappingsStmt acc s) ss

end

/-- `_load_node_class_mappings`: iterate every file of the tree (hidden files
    included), skip files without the `NODE_CLASS_MAPPINGS` marker, extract
    alias pairs from the rest. The `try` wraps the whole loop, so a read or
    parse failure ends the loop with the aliases accumulated so far. -/
def loadNodeClassMappings : List SrcFile → List (String × String) → List (String × String)
  | [], acc => acc
  | f :: rest, acc =>
      match f.read with
      | .error _ => acc
      | .ok c =>
          if c.hasNodeClassMappings then
            match c.parse with
            | .error _ => acc
            | .ok stmts => loadNodeClassMappings rest (extractMappingsStmts acc stmts)
          else loadNodeClassMappings rest acc

/-- Test of `_find_python_files`: any path component starting with a dot. -/
def hiddenPath (parts : List String) : Bool :=
  parts.any (fun part => pyStartsWith part ".")

/-- `_find_python_files`: keep the files with no hidden path component. -/
def findPythonFiles (files : List SrcFile) : List SrcFile :=
  files.filter (fun f => !hiddenPath f.parts)

/-- `_analyze_file`: read failures yield an empty result; files without the
    `INPUT_TYPES` marker return empty without parsing; parse failures yield
    empty; otherwise run the visitor and return its `class_folders`. -/
def analyzeFile (f : SrcFile) : List (String × List (String × String)) :=
  match f.read with
  | .error _ => []
  | .ok c =>
      if !c.hasInputTypes then []
      else
        match c.parse with
        | .error _ => []
        | .ok stmts => (visitStmts ⟨none, []⟩ stmts).classFolders

/-- The early-exit test of `_analyze_node_classes`: every required node type
    is a key of the accumulated class-folder map. -/
def coversRequired (cf : List (String × List (String × String)))
    (required : List String) : Bool :=
  required.all (fun t => (alookup cf t).isSome)

/-- The merge loop of `_analyze_node_classes`: fold the gathered per-file
    results in dispatch order via dict update, stopping once the required
    node types (when any) are all covered. -/
def mergeLoop (required : List String) (acc : List (String × List (String × String))) :
    List (List (String × List (String × String))) →
    List (String × List (String × String))
  | [] => acc
  | r :: rest =>
      if !required.isEmpty && coversRequired (updateAll acc r) required
      then updateAll acc r
      else mergeLoop required (updateAll acc r) rest

/-- `_analyze_node_classes`: dispatch every non-hidden file to `_analyze_file`
    (asyncio.gather returns all results, in dispatch order, only after every
    task resolved), then run the merge loop over the gathered results. -/
def analyzeNodeClasses (required : List String) (files : List SrcFile) :
    List (String × List (String × String)) :=
  mergeLoop required [] ((findPythonFiles files).map analyzeFile)

/-- `MODEL_PATTERNS`, in source (dict-insertion) order. -/
def MODEL_PATTERNS : List (String × String) :=
  [("vae", "vae"), ("lora", "loras"), ("embedding", "embeddings"),
   ("checkpoint", "checkpoints"), ("upscale", "upscale_models"),
   ("controlnet", "controlnet"), ("clip", "clip"),
   ("hypernetwork", "hypernetworks"), ("t2i", "checkpoints"),
   ("sd", "checkpoints")]

/-- The pattern loop of `_guess_model_folder`. -/
def guessFrom : List (String × String) → String → Option String
  | [], _ => none
  | (p, folder) :: rest, l => if pyContains l p then some folder else guessFrom rest l

/-- `_guess_model_folder`: lower-case the filename and return the folder of
    the first matching substring pattern. -/
def guessModelFolder (filename : String) : Option String :=
  guessFrom MODEL_PATTERNS (pyLower filename)

/-- Modelled from the spec (section 4.4), for comparison with
    `guessModelFolder`: the heuristic as the spec's explicit precedence
    chain of substring tests. -/
def folderHeuristicSpec (filename : String) : Option String :=
  let l := pyLower filename
  if pyContains l "vae" then some "vae"
  else if pyContains l "lora" then some "loras"
  else if pyContains l "embedding" then some "embeddings"
  else if pyContains l "checkpoint" then some "checkpoints"
  else if pyContains l "upscale" then some "upscale_models"
  else if pyContains l "controlnet" then some "controlnet"
  else if pyContains l "clip" then some "clip"
  else if pyContains l "hypernetwork" then some "hypernetworks"
  else if pyContains l "t2i" then some "checkpoints"
  else if pyContains l "sd" then some "checkpoints"
  else none

/-- One entry of the input manifest's `models` list; `none` fields stand for
    missing dictionary keys (dictionary access raises on them). -/
structure MEntry where
  filename : Option String
  needed_by : Option (List String)
deriving DecidableEq, Repr

/-- The input manifest; `models := none` stands for a missing `"models"` key
    (the code accesses it with `.get("models", [])`). -/
structure Manifest where
  models : Option (List MEntry)
deriving DecidableEq, Repr

/-- The `node_info` evidence dict of an emitted model record. -/
structure NodeInfo where
  model_folders : List (String × String)
  source_file : String
  node_class : Option String := none
  display_name : Option String := none
deriving DecidableEq, Repr

/-- One emitted model record of `infer_model_paths`. -/
structure ModelRec where
  filename : String
  required_by : List String
  node_info : Option NodeInfo
  inferred_path : Option String
deriving DecidableEq, Repr

/-- The set comprehension collecting `required_node_types`: every model's
    `needed_by` entries mapped through the alias table (falling back to the
    display name); a missing `needed_by` key raises (`Except.error`). -/
def collectRequired (mappings : List (String × String)) :
    List MEntry → Except Unit (List String)
  | [] => .ok []
  | m :: rest =>
      match m.needed_by with
      | none => .error ()
      | some nbs =>
          (collectRequired mappings rest).map
            (fun r => nbs.map (fun d => (alookup mappings d).getD d) ++ r)

/-- The per-model resolution loop of `infer_model_paths`: walk `needed_by` in
    order, map each display name through the alias table, and stop at the
    first resolved class with a non-empty folder dict, returning
    `next(iter(folders.values()))` together with the evidence fields. -/
def findClassFolder (mappings : List (String × String))
    (cf : List (String × List (String × String))) :
    List String → Option (String × String × String × List (String × String))
  | [] => none
  | d :: rest =>
      let nt := (alookup mappings d).getD d
      match alookup cf nt with
      | some ((k, v) :: fs) => some (v, nt, d, (k, v) :: fs)
      | _ => findClassFolder mappings cf rest

/-- Python truthiness of the optional `inferred_folder` string: `None` and
    the empty string are falsy. -/
def pyTruthy : Option String → Bool
  | none => false
  | some s => !s.isEmpty

/-- Build one emitted record, mirroring the mutable `inferred_folder` /
    `model_info.node_info` flow of the per-model loop: the `needed_by` loop
    may set both; the fallback guard `if not inferred_folder:` re-enters on a
    falsy (absent or empty-string) folder, overwriting `node_info` only when
    the guessed folder is itself truthy; the final `inferred_path` is the
    f-string under one more truthiness test; a missing `filename` or
    `needed_by` key raises. -/
def buildRecord (mappings : List (String × String))
    (cf : List (String × List (String × String))) (m : MEntry) :
    Except Unit ModelRec :=
  match m.filename with
  | none => .error ()
  | some fn =>
      match m.needed_by with
      | none => .error ()
      | some nbs =>
          let found := findClassFolder mappings cf nbs
          let classFolder : Option String := found.map (fun x => x.1)
          let classInfo : Option NodeInfo := found.map (fun x =>
            { model_folders := x.2.2.2,
              source_file := "found_in_class_definition",
              node_class := some x.2.1,
              display_name := some x.2.2.1 })
          let final : Option String × Option NodeInfo :=
            if pyTruthy classFolder then (classFolder, classInfo)
            else
              match guessModelFolder fn with
              | some g =>
                  (some g,
                   if g.isEmpty then classInfo
                   else some { model_folders := [(g, g)],
                               source_file := "guessed_from_filename" })
              | none => (none, classInfo)
          .ok { filename := fn, required_by := nbs,
                node_info := final.2,
                inferred_path :=
                  match final.1 with
                  | some f =>
                      if f.isEmpty then none
                      else some ("models/" ++ f ++ "/" ++ fn)
                  | none => none }

/-- The per-model loop of `infer_model_paths`, in manifest order; an exception
    on any model discards the partial list. -/
def buildRecords (mappings : List (String × String))
    (cf : List (String × List (String × String))) :
    List MEntry → Except Unit (List ModelRec)
  | [] => .ok []
  | m :: rest => do
      let r ← buildRecord mappings cf m
      let rs ← buildRecords mappings cf rest
      .ok (r :: rs)

/-- `infer_model_paths`: load the alias table, collect the required node
    types, analyze the source tree, then resolve every model of the manifest
    (a missing `"models"` key defaults to the empty list). -/
def inferModelPaths (files : List SrcFile) (manifest : Manifest) :
    Except Unit (List ModelRec) := do
  let mappings := loadNodeClassMappings files []
  let ms := manifest.models.getD []
  let required ← collectRequired mappings ms
  let cf := analyzeNodeClasses required files
  buildRecords mappings cf ms

/-- One node entry consumed by `transform_nodes_data` (type plus the model
    filenames extracted from its widget values). -/
structure WNode where
  type : String
  model : List String
deriving DecidableEq, Repr

/-- The per-model body of the models loop of `transform_nodes_data`: create
    the entry with an empty `needed_by` set on first sight of the filename,
    then add the node's type to its set. -/
def addModelEntry (d : List (String × List String)) (t fn : String) :
    List (String × List String) :=
  let d' := match alookup d fn with
    | none => d ++ [(fn, [])]
    | some _ => d
  match alookup d' fn with
  | some s => dinsert d' fn (if s.contains t then s else s ++ [t])
  | none => d'

/-- The models dict built by `transform_nodes_data` (sets as insertion-ordered
    duplicate-free lists). -/
def buildModelsDict (nodes : List WNode) : List (String × List String) :=
  nodes.foldl (fun d n => n.model.foldl (fun d' fn => addModelEntry d' n.type fn) d) []

/-- Insertion step of Python's `sorted` on strings. -/
def insertSorted (x : String) : List String → List String
  | [] => [x]
  | y :: ys => if x ≤ y then x :: y :: ys else y :: insertSorted x ys

/-- Python `sorted(list(s))` on a set of strings. -/
def pySorted (l : List String) : List String := l.foldr insertSorted []

/-- The `models` part of `transform_nodes_data`: the models dict's values with
    each `needed_by` set converted to a sorted list. -/
def transformModelsData (nodes : List WNode) : List MEntry :=
  (buildModelsDict nodes).map (fun p => ⟨some p.1, some (pySorted p.2)⟩)

/-- Abbreviation for a qualifying call `folder_paths.get_filename_list("<f>")`. -/
def qcall (f : String) : PyExpr :=
  PyExpr.call (PyExpr.attr (PyExpr.name "folder_paths") "get_filename_list")
    [PyExpr.constStr f]

mutual

/-- Whether a statement contains a class definition at any depth. -/
def stmtHasClassDef : PyStmt → Bool
  | .classDef _ _ => true
  | .funcDef _ _ body => stmtsHaveClassDef body
  | .assign _ _ => false
  | .exprStmt _ => false
  | .block _ body => stmtsHaveClassDef body

/-- Whether any statement of a list contains a class definition. -/
def stmtsHaveClassDef : List PyStmt → Bool
  | [] => false
  | s :: ss => stmtHasClassDef s || stmtsHaveClassDef ss

end

/-- Whether a file makes `_load_node_class_mappings`'s loop raise: unreadable,
    or carrying the marker with malformed syntax. -/
def fileAbortsAliasScan (f : SrcFile) : Bool :=
  match f.read with
  | .error _ => true
  | .ok c =>
      c.hasNodeClassMappings &&
        (match c.parse with | .error _ => true | .ok _ => false)

/-- a readable file whose `NODE_CLASS_MAPPINGS` dict maps `"Disp"` to `Cls`. -/
def aliasGoodFile : SrcFile :=
  ⟨["good.py"], .ok ⟨true, false,
    .ok [PyStmt.assign [PyExpr.name "NODE_CLASS_MAPPINGS"]
          (PyExpr.dict [PyExpr.constStr "Disp"] [PyExpr.name "Cls"])]⟩⟩

/-- a file whose read raises (e.g. an unreadable file). -/
def aliasErrorFile : SrcFile := ⟨["bad.py"], .error ()⟩

/-- a file under a hidden directory carrying a `NODE_CLASS_MAPPINGS` dict. -/
def hiddenAliasFile : SrcFile :=
  ⟨[".git", "a.py"], .ok ⟨true, false,
    .ok [PyStmt.assign [PyExpr.name "NODE_CLASS_MAPPINGS"]
          (PyExpr.dict [PyExpr.constStr "Disp"] [PyExpr.name "Cls"])]⟩⟩

/-! ## Helper lemmas -/

lemma findClassFolder_skip (mappings : List (String × String))
    (cf : List (String × List (String × String))) (d : String) (rest : List String)
    (h : alookup cf ((alookup mappings d).getD d) = none ∨
         alookup cf ((alookup mappings d).getD d) = some []) :
    findClassFolder mappings cf (d :: rest) = findClassFolder mappings cf rest := by
  rcases h with h | h <;> simp [findClassFolder, h]

lemma findClassFolder_all_miss (mappings : List (String × String))
    (cf : List (String × List (String × String))) (nbs : List String)
    (h : ∀ d ∈ nbs, alookup cf ((alookup mappings d).getD d) = none ∨
                    alookup cf ((alookup mappings d).getD d) = some []) :
    findClassFolder mappings cf nbs = none := by
  induction nbs with
  | nil => rfl
  | cons d rest ih =>
      rw [findClassFolder_skip mappings cf d rest (h d (by simp))]
      exact ih (fun d' hd' => h d' (by simp [hd']))

lemma findClassFolder_first_hit (mappings : List (String × String))
    (cf : List (String × List (String × String))) (pre post : List String)
    (d k v : String) (fs : List (String × String))
    (hpre : ∀ d' ∈ pre, alookup cf ((alookup mappings d').getD d') = none ∨
                        alookup cf ((alookup mappings d').getD d') = some [])
    (hd : alookup cf ((alookup mappings d).getD d) = some ((k, v) :: fs)) :
    findClassFolder mappings cf (pre ++ d :: post) =
      some (v, (alookup mappings d).getD d, d, (k, v) :: fs) := by
  induction pre with
  | nil => simp [findClassFolder, hd]
  | cons p ps ih =>
      rw [List.cons_append, findClassFolder_skip mappings cf p _ (hpre p (by simp))]
      exact ih (fun d' hd' => hpre d' (by simp [hd']))

lemma alookup_dinsert {α : Type} (d : List (String × α)) (k t : String) (v : α) :
    alookup (dinsert d k v) t = if k = t then some v else alookup d t := by
  induction d with
  | nil => simp [dinsert, alookup]
  | cons kv tl ih =>
      obtain ⟨k', v'⟩ := kv
      by_cases hk : k' = k
      · subst hk
        by_cases ht : k' = t <;> simp [dinsert, alookup, ht]
      · by_cases ht : k' = t
        · subst ht
          have : ¬ k = k' := fun h => hk h.symm
          simp [dinsert, alookup, hk, this]
        · simp [dinsert, alookup, hk, ht, ih]

lemma isSome_alookup_updateAll {α : Type} (m d : List (String × α)) (t : String)
    (h : (alookup d t).isSome = true) : (alookup (updateAll d m) t).isSome = true := by
  induction m generalizing d with
  | nil => simpa [updateAll] using h
  | cons kv rest ih =>
      have hstep : updateAll d (kv :: rest) = updateAll (dinsert d kv.1 kv.2) rest := rfl
      rw [hstep]
      apply ih
      rw [alookup_dinsert]
      by_cases hk : kv.1 = t <;> simp [hk, h]

lemma coversRequired_updateAll (acc r : List (String × List (String × String)))
    (req : List String) (h : coversRequired acc req = true) :
    coversRequired (updateAll acc r) req = true := by
  simp only [coversRequired, List.all_eq_true] at h ⊢
  exact fun t ht => isSome_alookup_updateAll r acc t (h t ht)

lemma mergeLoop_no_required (acc : List (String × List (String × String)))
    (rs : List (List (String × List (String × String)))) :
    mergeLoop [] acc rs = rs.foldl updateAll acc := by
  induction rs generalizing acc with
  | nil => rfl
  | cons r rest ih => simp [mergeLoop, List.foldl_cons, ih]

lemma mergeLoop_early_stop (required : List String)
    (acc : List (String × List (String × String)))
    (rs1 : List (List (String × List (String × String))))
    (r : List (String × List (String × String)))
    (rs2 : List (List (String × List (String × String))))
    (hreq : required ≠ [])
    (hcov : coversRequired ((rs1 ++ [r]).foldl updateAll acc) required = true) :
    mergeLoop required acc (rs1 ++ r :: rs2) = mergeLoop required acc (rs1 ++ [r]) := by
  have hne : required.isEmpty = false := by
    cases required with
    | nil => exact absurd rfl hreq
    | cons a as => rfl
  induction rs1 generalizing acc with
  | nil =>
      have hcov' : coversRequired (updateAll acc r) required = true := by
        simpa using hcov
      simp [mergeLoop, hne, hcov']
  | cons r0 rs1' ih =>
      have hcov' : coversRequired ((rs1' ++ [r]).foldl updateAll (updateAll acc r0))
          required = true := by
        simpa [List.foldl_cons] using hcov
      by_cases hc : coversRequired (updateAll acc r0) required = true
      · simp [mergeLoop, hne, hc]
      · simp [mergeLoop, hne, hc, ih (updateAll acc r0) hcov']

lemma callCheck_no_class (cf : List (String × List (String × String)))
    (fn : PyExpr) (args : List PyExpr) :
    callCheck ⟨none, cf⟩ fn args = ⟨none, cf⟩ := by
  unfold callCheck
  split
  · rfl
  · rfl

mutual

lemma visitExpr_no_class (cf : List (String × List (String × String))) :
    ∀ e : PyExpr, visitExpr ⟨none, cf⟩ e = ⟨none, cf⟩
  | .name _ => rfl
  | .attr v _ => by simp [visitExpr, visitExpr_no_class cf v]
  | .constStr _ => rfl
  | .call fn args => by
      simp [visitExpr, callCheck_no_class, visitExpr_no_class cf fn,
            visitExprs_no_class cf args]
  | .dict ks vs => by
      simp [visitExpr, visitExprs_no_class cf ks, visitExprs_no_class cf vs]
  | .other cs => by simp [visitExpr, visitExprs_no_class cf cs]

lemma visitExprs_no_class (cf : List (String × List (String × String))) :
    ∀ es : List PyExpr, visitExprs ⟨none, cf⟩ es = ⟨none, cf⟩
  | [] => rfl
  | e :: es => by
      simp [visitExprs, visitExpr_no_class cf e, visitExprs_no_class cf es]

end

mutual

lemma visitStmt_no_class (cf : List (String × List (String × String))) :
    ∀ s : PyStmt, stmtHasClassDef s = false → visitStmt ⟨none, cf⟩ s = ⟨none, cf⟩
  | .classDef _ _, h => by simp [stmtHasClassDef] at h
  | .funcDef _ _ body, h => by
      simp only [stmtHasClassDef] at h
      simp [visitStmt, visitStmts_no_class cf body h]
  | .assign targets value, _ => by
      simp [visitStmt, visitExprs_no_class cf targets, visitExpr_no_class cf value]
  | .exprStmt e, _ => by simp [visitStmt, visitExpr_no_class cf e]
  | .block es body, h => by
      simp only [stmtHasClassDef] at h
      simp [visitStmt, visitExprs_no_class cf es, visitStmts_no_class cf body h]

lemma visitStmts_no_class (cf : List (String × List (String × String))) :
    ∀ ss : List PyStmt, stmtsHaveClassDef ss = false →
      visitStmts ⟨none, cf⟩ ss = ⟨none, cf⟩
  | [], _ => rfl
  | s :: ss, h => by
      rw [stmtsHaveClassDef, Bool.or_eq_false_iff] at h
      simp [visitStmts, visitStmt_no_class cf s h.1, visitStmts_no_class cf ss h.2]

end

lemma collectRequired_missing_key (mappings : List (String × String))
    (ms : List MEntry) (h : ∃ m ∈ ms, m.needed_by = none) :
    collectRequired mappings ms = .error () := by
  induction ms with
  | nil => simp at h
  | cons m rest ih =>
      obtain ⟨m', hm', hnb⟩ := h
      rcases List.mem_cons.mp hm' with rfl | hmem
      · simp [collectRequired, hnb]
      · cases hnb0 : m.needed_by with
        | none => simp [collectRequired, hnb0]
        | some nbs => simp [collectRequired, hnb0, ih ⟨m', hmem, hnb⟩, Except.map]

lemma buildRecords_missing_key (mappings : List (String × String))
    (cf : List (String × List (String × String))) (ms : List MEntry)
    (h : ∃ m ∈ ms, m.filename = none ∨ m.needed_by = none) :
    buildRecords mappings cf ms = .error () := by
  induction ms with
  | nil => simp at h
  | cons m rest ih =>
      obtain ⟨m', hm', hbad⟩ := h
      rcases List.mem_cons.mp hm' with heq | hmem
      · subst heq
        have hrec : buildRecord mappings cf m' = .error () := by
          rcases hbad with hfn | hnb
          · simp [buildRecord, hfn]
          · cases hfn0 : m'.filename with
            | none => simp [buildRecord, hfn0]
            | some fn => simp [buildRecord, hfn0, hnb]
        simp only [buildRecords, hrec]
        rfl
      · cases hb : buildRecord mappings cf m with
        | error e =>
            cases e
            simp only [buildRecords, hb]
            rfl
        | ok r =>
            simp only [buildRecords, hb, ih ⟨m', hmem, hbad⟩]
            rfl

lemma alookup_mem {α : Type} (d : List (String × α)) (k : String) (v : α)
    (h : alookup d k = some v) : (k, v) ∈ d := by
  induction d with
  | nil => simp [alookup] at h
  | cons kv rest ih =>
      obtain ⟨k', v'⟩ := kv
      by_cases hk : k' = k
      · subst hk
        simp [alookup] at h
        simp [h]
      · simp [alookup, hk] at h
        exact List.mem_cons_of_mem _ (ih h)

lemma mem_dinsert {α : Type} (d : List (String × α)) (k : String) (v : α)
    (e : String × α) (h : e ∈ dinsert d k v) : e = (k, v) ∨ e ∈ d := by
  induction d with
  | nil => simpa [dinsert] using h
  | cons kv rest ih =>
      obtain ⟨k', v'⟩ := kv
      by_cases hk : k' = k
      · subst hk
        simp [dinsert] at h
        rcases h with rfl | hm
        · exact Or.inl rfl
        · exact Or.inr (List.mem_cons_of_mem _ hm)
      · simp [dinsert, hk] at h
        rcases h with rfl | hm
        · exact Or.inr (List.mem_cons_self _ _)
        · rcases ih hm with h1 | h2
          · exact Or.inl h1
          · exact Or.inr (List.mem_cons_of_mem _ h2)

lemma alookup_append_single {α : Type} (d : List (String × α)) (k : String) (x : α)
    (h : alookup d k = none) : alookup (d ++ [(k, x)]) k = some x := by
  induction d with
  | nil => simp [alookup]
  | cons kv rest ih =>
      obtain ⟨k', v'⟩ := kv
      by_cases hk : k' = k
      · simp [alookup, hk] at h
      · simp [alookup, hk] at h ⊢
        exact ih h

lemma dinsert_append_single {α : Type} (d : List (String × α)) (k : String) (x v : α)
    (h : alookup d k = none) : dinsert (d ++ [(k, x)]) k v = d ++ [(k, v)] := by
  induction d with
  | nil => simp [dinsert]
  | cons kv rest ih =>
      obtain ⟨k', v'⟩ := kv
      by_cases hk : k' = k
      · simp [alookup, hk] at h
      · simp [alookup, hk] at h
        simp [dinsert, hk, ih h]

lemma addModelEntry_nonempty (d : List (String × List String)) (t fn : String)
    (hd : ∀ e ∈ d, e.2 ≠ []) : ∀ e ∈ addModelEntry d t fn, e.2 ≠ [] := by
  intro e he
  cases halk : alookup d fn with
  | some s =>
      simp only [addModelEntry, halk] at he
      rcases mem_dinsert d fn _ e he with rfl | hm
      · have hs : s ≠ [] := hd (fn, s) (alookup_mem d fn s halk)
        by_cases hc : t ∈ s <;> simp [hc, hs]
      · exact hd e hm
  | none =>
      simp only [addModelEntry, halk, alookup_append_single d fn [] halk] at he
      have h3 : (if ([] : List String).contains t then ([] : List String)
                 else [] ++ [t]) = [t] := rfl
      rw [h3, dinsert_append_single d fn [] [t] halk] at he
      rcases List.mem_append.mp he with hm | hm
      · exact hd e hm
      · simp only [List.mem_singleton] at hm
        subst hm
        simp

lemma foldl_addModelEntry_nonempty (ms : List String) (t : String)
    (d : List (String × List String)) (hd : ∀ e ∈ d, e.2 ≠ []) :
    ∀ e ∈ ms.foldl (fun d' fn => addModelEntry d' t fn) d, e.2 ≠ [] := by
  induction ms generalizing d with
  | nil => simpa using hd
  | cons fn ms ih => exact ih _ (addModelEntry_nonempty d t fn hd)

lemma buildModelsDict_nonempty (nodes : List WNode) :
    ∀ e ∈ buildModelsDict nodes, e.2 ≠ [] := by
  have main : ∀ (ns : List WNode) (d : List (String × List String)),
      (∀ e ∈ d, e.2 ≠ []) →
      ∀ e ∈ ns.foldl (fun d n => n.model.foldl (fun d' fn => addModelEntry d' n.type fn) d) d,
        e.2 ≠ [] := by
    intro ns
    induction ns with
    | nil => intro d hd; simpa using hd
    | cons n ns ih =>
        intro d hd
        exact ih _ (foldl_addModelEntry_nonempty n.model n.type d hd)
  exact main nodes [] (by simp)

lemma insertSorted_length (x : String) (l : List String) :
    (insertSorted x l).length = l.length + 1 := by
  induction l with
  | nil => rfl
  | cons y ys ih =>
      by_cases h : x ≤ y <;> simp [insertSorted, h, ih]

lemma pySorted_ne_nil (l : List String) (h : l ≠ []) : pySorted l ≠ [] := by
  cases l with
  | nil => exact absurd rfl h
  | cons x xs =>
      have hlen : (pySorted (x :: xs)).length = (pySorted xs).length + 1 := by
        simp [pySorted, insertSorted_length]
      intro hn
      rw [hn] at hlen
      simp at hlen

lemma buildRecord_fields (mappings : List (String × String))
    (cf : List (String × List (String × String))) (m : MEntry) (r : ModelRec)
    (h : buildRecord mappings cf m = .ok r) :
    m.needed_by = some r.required_by ∧ m.filename = some r.filename := by
  cases hfn : m.filename with
  | none => simp [buildRecord, hfn] at h
  | some fn =>
      cases hnb : m.needed_by with
      | none => simp [buildRecord, hfn, hnb] at h
      | some nbs =>
          refine ⟨?_, ?_⟩ <;>
          · simp only [buildRecord, hfn, hnb] at h
            rcases hff : findClassFolder mappings cf nbs with _ | ⟨folder, nt, d, folders⟩
            · rw [hff] at h
              cases hg : guessModelFolder fn with
              | none => rw [hg] at h; cases h; simp [hfn, hnb]
              | some folder => rw [hg] at h; cases h; simp [hfn, hnb]
            · rw [hff] at h; cases h; simp [hfn, hnb]

lemma buildRecords_entry_source (mappings : List (String × String))
    (cf : List (String × List (String × String))) (ms : List MEntry)
    (recs : List ModelRec) (h : buildRecords mappings cf ms = .ok recs) :
    ∀ r ∈ recs, ∃ m ∈ ms, m.needed_by = some r.required_by := by
  induction ms generalizing recs with
  | nil =>
      simp only [buildRecords] at h
      cases h
      simp
  | cons m rest ih =>
      cases hb : buildRecord mappings cf m with
      | error e => rw [buildRecords, hb] at h; cases h
      | ok r0 =>
          cases hr : buildRecords mappings cf rest with
          | error e => rw [buildRecords, hb, hr] at h; cases h
          | ok rs0 =>
              rw [buildRecords, hb, hr] at h
              cases h
              intro r hr'
              rcases List.mem_cons.mp hr' with heq | hmem
              · subst heq
                exact ⟨m, List.mem_cons_self _ _, (buildRecord_fields mappings cf m r hb).1⟩
              · obtain ⟨m', hm', hq⟩ := ih rs0 hr r hmem
                exact ⟨m', List.mem_cons_of_mem _ hm', hq⟩

/-! ## Claim theorems -/

/-- C1 counterexample: a requiring class whose non-empty folder dict carries
    the empty-string folder is found and picked by the `needed_by` loop, yet
    the falsy value fails the `if not inferred_folder:` guard, so the
    filename heuristic IS consulted: the emitted record is the guessed
    `loras` one, not the class-derived record with path `models//...` the
    claim predicts. -/
theorem c1_counterexample :
    buildRecord [] [("C", [("", "")])] ⟨some "my_lora.safetensors", some ["C"]⟩ =
      .ok { filename := "my_lora.safetensors", required_by := ["C"],
            node_info := some { model_folders := [("loras", "loras")],
                                source_file := "guessed_from_filename" },
            inferred_path := some "models/loras/my_lora.safetensors" } ∧
    ({ filename := "my_lora.safetensors", required_by := ["C"],
       node_info := some { model_folders := [("loras", "loras")],
                           source_file := "guessed_from_filename" },
       inferred_path := some "models/loras/my_lora.safetensors" } : ModelRec) ≠
      { filename := "my_lora.safetensors", required_by := ["C"],
        node_info := some { model_folders := [("", "")],
                            source_file := "found_in_class_definition",
                            node_class := some "C",
                            display_name := some "C" },
        inferred_path := some "models//my_lora.safetensors" } :=
  ⟨rfl, by decide⟩

/-- C1 amended: the orchestrator walks the requiring node types in their
    original order, maps each through the alias table (falling back to the
    display name itself), stops at the first one whose class has a non-empty
    folder set, and picks that set's first folder; whenever that picked
    class-derived folder is a non-empty string (Python truthiness), the
    filename heuristic is not consulted — for every filename — so a requiring
    class declaring `"loras"` wins even on a checkpoint-looking filename;
    only the degenerate empty-string folder falls through to the heuristic. -/
theorem c1_class_resolution_dominates (mappings : List (String × String))
    (cf : List (String × List (String × String))) (pre post : List String)
    (d fn k v : String) (fs : List (String × String))
    (hv : v ≠ "")
    (hpre : ∀ d' ∈ pre, alookup cf ((alookup mappings d').getD d') = none ∨
                        alookup cf ((alookup mappings d').getD d') = some [])
    (hd : alookup cf ((alookup mappings d).getD d) = some ((k, v) :: fs)) :
    buildRecord mappings cf ⟨some fn, some (pre ++ d :: post)⟩ =
      .ok { filename := fn, required_by := pre ++ d :: post,
            node_info := some { model_folders := (k, v) :: fs,
                                source_file := "found_in_class_definition",
                                node_class := some ((alookup mappings d).getD d),
                                display_name := some d },
            inferred_path := some ("models/" ++ v ++ "/" ++ fn) } := by
  have hvE : v.isEmpty = false := by
    cases hb : v.isEmpty with
    | false => rfl
    | true => exact absurd ((String.isEmpty_iff v).mp hb) hv
  simp [buildRecord, findClassFolder_first_hit mappings cf pre post d k v fs hpre hd,
        pyTruthy, hvE]

/-- C1 witness: a model required by a class declaring folder `"loras"` whose
    filename matches the `"checkpoint"` pattern resolves to `"loras"`. -/
theorem c1_witness :
    ("loras" : String) ≠ "" ∧
    buildRecord [] [("LoraLoader", [("loras", "loras")])]
        ⟨some "model_checkpoint.ckpt", some ["LoraLoader"]⟩ =
      .ok { filename := "model_checkpoint.ckpt", required_by := ["LoraLoader"],
            node_info := some { model_folders := [("loras", "loras")],
                                source_file := "found_in_class_definition",
                                node_class := some "LoraLoader",
                                display_name := some "LoraLoader" },
            inferred_path := some "models/loras/model_checkpoint.ckpt" } :=
  ⟨by decide,
   c1_class_resolution_dominates [] [("LoraLoader", [("loras", "loras")])] [] []
     "LoraLoader" "model_checkpoint.ckpt" "loras" "loras" [] (by decide)
     (fun d' hd' => absurd hd' (List.not_mem_nil d')) (by decide)⟩

/-- C2: the folder heuristic lower-cases the filename and applies the exact
    precedence chain vae, lora, embedding, checkpoint, upscale, controlnet,
    clip, hypernetwork, t2i, sd with the spec's folder for each, returning no
    folder when nothing matches; `"model_vae_sd.safetensors"` resolves to
    `"vae"`. -/
theorem c2_folder_heuristic_table :
    (∀ filename, guessModelFolder filename = folderHeuristicSpec filename) ∧
    guessModelFolder "model_vae_sd.safetensors" = some "vae" :=
  ⟨fun _ => rfl, by decide⟩

/-- C7: a model none of whose requiring node types resolves to a class-folder
    entry with folders, and whose filename matches no heuristic pattern, is
    emitted with `node_info` and `inferred_path` both null, not as an error. -/
theorem c7_unresolved_model_emits_nulls (mappings : List (String × String))
    (cf : List (String × List (String × String))) (fn : String) (nbs : List String)
    (hmiss : ∀ d ∈ nbs, alookup cf ((alookup mappings d).getD d) = none ∨
                        alookup cf ((alookup mappings d).getD d) = some [])
    (hguess : guessModelFolder fn = none) :
    buildRecord mappings cf ⟨some fn, some nbs⟩ =
      .ok { filename := fn, required_by := nbs,
            node_info := none, inferred_path := none } := by
  simp [buildRecord, findClassFolder_all_miss mappings cf nbs hmiss, hguess]

/-- C7 witness: an unknown node type and a patternless filename yield the
    all-null record. -/
theorem c7_witness :
    guessModelFolder "foo.bin" = none ∧
    buildRecord [] [] ⟨some "foo.bin", some ["UnknownNode"]⟩ =
      .ok { filename := "foo.bin", required_by := ["UnknownNode"],
            node_info := none, inferred_path := none } :=
  ⟨by decide,
   c7_unresolved_model_emits_nulls [] [] "foo.bin" ["UnknownNode"]
     (fun d _ => Or.inl rfl) (by decide)⟩

/-- C9: a file whose text lacks the `INPUT_TYPES` substring yields an empty
    analysis result whatever its parsed content — even when that content holds
    qualifying `folder_paths.get_filename_list` calls, as the contrasting
    marker-bearing file shows — and an empty result leaves the accumulated
    class-folder map unchanged when merged. -/
theorem c9_input_types_marker_gate :
    (∀ (parts : List String) (m : Bool) (p : Except Unit (List PyStmt)),
        analyzeFile ⟨parts, .ok ⟨m, false, p⟩⟩ = []) ∧
    analyzeFile ⟨["x.py"], .ok ⟨false, true,
        .ok [PyStmt.classDef "A" [PyStmt.exprStmt (qcall "vae")]]⟩⟩ =
      [("A", [("vae", "vae")])] ∧
    (∀ acc : List (String × List (String × String)), updateAll acc [] = acc) :=
  ⟨fun _ _ _ => rfl, rfl, fun _ => rfl⟩

/-- C10: the tree scanner and the alias loader disagree on hidden paths: a
    file with a dotted path component is never among the scanner's analyzed
    files, while the alias loader's behavior never depends on the path, so the
    same hidden file still contributes its display-name aliases. -/
theorem c10_hidden_path_disagreement :
    (∀ (files : List SrcFile) (f : SrcFile),
        hiddenPath f.parts = true → f ∉ findPythonFiles files) ∧
    (∀ (parts parts' : List String) (rd : Except Unit FileContent)
        (rest : List SrcFile) (acc : List (String × String)),
        loadNodeClassMappings (⟨parts, rd⟩ :: rest) acc =
        loadNodeClassMappings (⟨parts', rd⟩ :: rest) acc) ∧
    loadNodeClassMappings [hiddenAliasFile] [] = [("Disp", "Cls")] ∧
    findPythonFiles [hiddenAliasFile] = [] :=
  ⟨fun files f h hmem => by simp [findPythonFiles, List.mem_filter, h] at hmem,
   fun _ _ _ _ _ => rfl, rfl, rfl⟩

/-- C10 witness: the hidden alias file is excluded from the scanner's file
    list even when present in the tree. -/
theorem c10_witness :
    hiddenPath hiddenAliasFile.parts = true ∧
    hiddenAliasFile ∉ findPythonFiles [hiddenAliasFile] :=
  ⟨by decide,
   c10_hidden_path_disagreement.1 [hiddenAliasFile] hiddenAliasFile (by decide)⟩

/-- C3: the final class-folder map folds the gathered per-file results in
    dispatch order through dict update (later files overwriting earlier ones
    key-by-key, with no early exit when no node types are required), and once
    some merged prefix covers every required node type (the required set being
    non-empty) the remaining gathered results are not merged; the merge runs
    over the full list of results of all dispatched analyses, which the
    gather step produces only after every task resolved. -/
theorem c3_merge_order_and_early_stop :
    (∀ (acc : List (String × List (String × String)))
        (rs : List (List (String × List (String × String)))),
        mergeLoop [] acc rs = rs.foldl updateAll acc) ∧
    (∀ (required : List String) (acc : List (String × List (String × String)))
        (rs1 : List (List (String × List (String × String))))
        (r : List (String × List (String × String)))
        (rs2 : List (List (String × List (String × String)))),
        required ≠ [] →
        coversRequired ((rs1 ++ [r]).foldl updateAll acc) required = true →
        mergeLoop required acc (rs1 ++ r :: rs2) = mergeLoop required acc (rs1 ++ [r])) ∧
    (∀ (required : List String) (files : List SrcFile),
        analyzeNodeClasses required files =
          mergeLoop required [] ((findPythonFiles files).map analyzeFile)) :=
  ⟨mergeLoop_no_required, mergeLoop_early_stop, fun _ _ => rfl⟩

/-- C3 witness: with `"A"` required and covered by the first result, the
    results after it are not merged. -/
theorem c3_witness :
    coversRequired (([[("A", [("vae", "vae")])]] ++
        [[("B", [("x", "x")])]]).foldl updateAll []) ["A"] = true ∧
    mergeLoop ["A"] [] ([[("A", [("vae", "vae")])]] ++
        [("B", [("x", "x")])] :: [[("C", [("y", "y")])]]) =
      mergeLoop ["A"] [] ([[("A", [("vae", "vae")])]] ++ [[("B", [("x", "x")])]]) :=
  ⟨by decide,
   c3_merge_order_and_early_stop.2.1 ["A"] [] [[("A", [("vae", "vae")])]]
     [("B", [("x", "x")])] [[("C", [("y", "y")])]]
     (by decide) (by decide)⟩

/-- C4 counterexample: a qualifying module-level call placed after a class
    definition is not a no-op — the visitor's `current_class` is never reset
    on leaving a class, so the call is recorded under the preceding class
    `"A"`, against the claim that such a call records nothing. -/
theorem c4_counterexample :
    (visitStmts ⟨none, []⟩
        [PyStmt.classDef "A" [], PyStmt.exprStmt (qcall "vae")]).classFolders =
      [("A", [("vae", "vae")])] ∧
    (visitStmts ⟨none, []⟩
        [PyStmt.classDef "A" [], PyStmt.exprStmt (qcall "vae")]).classFolders ≠ [] :=
  ⟨rfl, by decide⟩

/-- C4 amended: the visitor records a string literal exactly on qualifying
    `folder_paths.get_filename_list` calls, attributing it to the most
    recently entered class definition; while no class definition has been
    entered (the current class still unset), every statement — qualifying
    calls included — leaves the visitor state unchanged, so a module-level
    call before any class records nothing, while one after a class definition
    is attributed to that class. -/
theorem c4_amended_recording_rule :
    (∀ (cf : List (String × List (String × String))) (ss : List PyStmt),
        stmtsHaveClassDef ss = false → visitStmts ⟨none, cf⟩ ss = ⟨none, cf⟩) ∧
    (∀ c f, visitStmts ⟨none, []⟩ [PyStmt.classDef c [PyStmt.exprStmt (qcall f)]] =
        ⟨some c, [(c, [(f, f)])]⟩) ∧
    (∀ c f, visitStmts ⟨none, []⟩
        [PyStmt.classDef c [], PyStmt.exprStmt (qcall f)] =
        ⟨some c, [(c, [(f, f)])]⟩) :=
  ⟨visitStmts_no_class, fun _ _ => rfl, fun _ _ => rfl⟩

/-- C4 witness: a module-level qualifying call with no class definition in
    scope records nothing. -/
theorem c4_witness :
    stmtsHaveClassDef [PyStmt.exprStmt (qcall "vae")] = false ∧
    visitStmts ⟨none, []⟩ [PyStmt.exprStmt (qcall "vae")] = ⟨none, []⟩ :=
  ⟨by decide,
   c4_amended_recording_rule.1 [] [PyStmt.exprStmt (qcall "vae")] (by decide)⟩

/-- C5 counterexample: an unreadable file stops the alias loader's single
    `try`-wrapped loop, so a later file's `NODE_CLASS_MAPPINGS` entry — which
    the same loader extracts when the failing file is absent — is lost,
    against the claim that a per-file failure does not prevent extraction
    from the remaining files. -/
theorem c5_counterexample :
    loadNodeClassMappings [aliasErrorFile, aliasGoodFile] [] = [] ∧
    loadNodeClassMappings [aliasGoodFile] [] = [("Disp", "Cls")] :=
  ⟨rfl, rfl⟩

/-- C5 amended: a read or parse failure during alias extraction is caught and
    logged at the loader level (the loader still returns normally), but it
    ends the scan: the alias table keeps the contributions of the files before
    the first failing file and every later file contributes nothing. -/
theorem c5_amended_failure_aborts_scan (pre : List SrcFile) (f : SrcFile)
    (post : List SrcFile) (acc : List (String × String))
    (hf : fileAbortsAliasScan f = true) :
    loadNodeClassMappings (pre ++ f :: post) acc = loadNodeClassMappings pre acc := by
  induction pre generalizing acc with
  | nil =>
      simp only [List.nil_append]
      cases hr : f.read with
      | error e => simp [loadNodeClassMappings, hr]
      | ok c =>
          simp only [fileAbortsAliasScan, hr, Bool.and_eq_true] at hf
          cases hp : c.parse with
          | error e => simp [loadNodeClassMappings, hr, hf.1, hp]
          | ok stmts => rw [hp] at hf; simp at hf
  | cons g pre' ih =>
      cases hr : g.read with
      | error e => simp [loadNodeClassMappings, hr]
      | ok c =>
          by_cases hm : c.hasNodeClassMappings = true
          · cases hp : c.parse with
            | error e => simp [loadNodeClassMappings, hr, hm, hp]
            | ok stmts => simp [loadNodeClassMappings, hr, hm, hp, ih]
          · simp [loadNodeClassMappings, hr, hm, ih]

/-- C5 witness: the unreadable file aborts the loop, losing the good file's
    aliases. -/
theorem c5_witness :
    fileAbortsAliasScan aliasErrorFile = true ∧
    loadNodeClassMappings ([] ++ aliasErrorFile :: [aliasGoodFile]) [] =
      loadNodeClassMappings [] [] :=
  ⟨by decide,
   c5_amended_failure_aborts_scan [] aliasErrorFile [aliasGoodFile] [] (by decide)⟩

/-- C6 counterexample: a manifest without the top-level `"models"` key is not
    a fatal error — `models_data.get("models", [])` defaults it to the empty
    list and inference succeeds with an empty output, against the claim that
    every missing required key propagates fatally. -/
theorem c6_counterexample :
    inferModelPaths [] ⟨none⟩ = .ok ([] : List ModelRec) := rfl

/-- C6 amended: a model entry missing its `"filename"` or `"needed_by"` key
    propagates a fatal error to the caller with no partial result, while a
    manifest missing the top-level `"models"` key is tolerated: it is read as
    an empty model list and inference succeeds with an empty output. -/
theorem c6_amended_missing_keys :
    (∀ (files : List SrcFile) (ms : List MEntry),
        (∃ m ∈ ms, m.filename = none ∨ m.needed_by = none) →
        inferModelPaths files ⟨some ms⟩ = .error ()) ∧
    (∀ files : List SrcFile, inferModelPaths files ⟨none⟩ = .ok []) := by
  constructor
  · intro files ms h
    by_cases hnb : ∃ m ∈ ms, m.needed_by = none
    · have hcr := collectRequired_missing_key (loadNodeClassMappings files []) ms hnb
      simp only [inferModelPaths, Option.getD_some]
      rw [hcr]
      rfl
    · cases hcr : collectRequired (loadNodeClassMappings files []) ms with
      | error e =>
          cases e
          simp only [inferModelPaths, Option.getD_some]
          rw [hcr]
          rfl
      | ok req =>
          simp only [inferModelPaths, Option.getD_some]
          rw [hcr]
          exact buildRecords_missing_key _ _ ms h
  · intro files
    rfl

/-- C6 witness: a model entry lacking `"filename"` makes inference fail with
    no partial result. -/
theorem c6_witness :
    (∃ m ∈ [(⟨none, some []⟩ : MEntry)], m.filename = none ∨ m.needed_by = none) ∧
    inferModelPaths [] ⟨some [⟨none, some []⟩]⟩ = .error () :=
  ⟨⟨⟨none, some []⟩, by simp, Or.inl rfl⟩,
   c6_amended_missing_keys.1 [] [⟨none, some []⟩]
     ⟨⟨none, some []⟩, by simp, Or.inl rfl⟩⟩

/-- C8: every emitted model record carries its manifest entry's `needed_by`
    list unchanged as `required_by`, and the transform pipeline creates a
    model entry only at a node that references its filename — that node's
    type is added to the entry's set at once — so records produced from a
    transformed workflow always have a non-empty `required_by` list. -/
theorem c8_required_by_nonempty :
    (∀ (mappings : List (String × String))
        (cf : List (String × List (String × String))) (m : MEntry) (r : ModelRec),
        buildRecord mappings cf m = .ok r →
        m.needed_by = some r.required_by ∧ m.filename = some r.filename) ∧
    (∀ (nodes : List WNode) (files : List SrcFile) (recs : List ModelRec),
        inferModelPaths files ⟨some (transformModelsData nodes)⟩ = .ok recs →
        ∀ r ∈ recs, r.required_by ≠ []) := by
  refine ⟨buildRecord_fields, ?_⟩
  intro nodes files recs h r hr
  simp only [inferModelPaths, Option.getD_some] at h
  cases hcr : collectRequired (loadNodeClassMappings files [])
      (transformModelsData nodes) with
  | error e =>
      rw [hcr] at h
      exact Except.noConfusion
        (h : (Except.error e : Except Unit (List ModelRec)) = .ok recs)
  | ok req =>
      rw [hcr] at h
      have hbr : buildRecords (loadNodeClassMappings files [])
          (analyzeNodeClasses req files) (transformModelsData nodes) = .ok recs := h
      obtain ⟨m, hm, hq⟩ := buildRecords_entry_source _ _ _ recs hbr r hr
      simp only [transformModelsData, List.mem_map] at hm
      obtain ⟨p, hp, hpm⟩ := hm
      have hnb : m.needed_by = some (pySorted p.2) := by rw [← hpm]
      rw [hnb] at hq
      have : pySorted p.2 = r.required_by := Option.some.inj hq
      rw [← this]
      exact pySorted_ne_nil p.2 (buildModelsDict_nonempty nodes p hp)

/-- C8 witness: a workflow node referencing `m.safetensors` yields a manifest
    whose single emitted record has the non-empty `required_by` `["NodeA"]`. -/
theorem c8_witness :
    inferModelPaths [] ⟨some (transformModelsData [⟨"NodeA", ["m.safetensors"]⟩])⟩ =
      .ok [⟨"m.safetensors", ["NodeA"], none, none⟩] ∧
    ∀ r ∈ [(⟨"m.safetensors", ["NodeA"], none, none⟩ : ModelRec)],
      r.required_by ≠ [] :=
  ⟨rfl,
   c8_required_by_nonempty.2 [⟨"NodeA", ["m.safetensors"]⟩] []
     [⟨"m.safetensors", ["NodeA"], none, none⟩] rfl⟩

end Comfypack
